import Mathlib

set_option maxHeartbeats 1000000

/-!
Verification of the `menu_driven_figure` reactive configuration-to-UI compiler
and render pipeline (`src/menu_driven_figure/app.py`), as a shallow embedding.

The embedding mirrors the Python source:
* JSON values are modelled to the nesting depth the settings store produces:
  a settings document is a JSON object mapping elem ids to scalars or to
  arrays of scalars (`JTop`); `json.dumps` / `json.loads` are modelled by
  `serTop` / `parseTop` over that grammar (strings escape `"` and `\`,
  numbers are exact decimal digit strings, separators are `", "` and `": "`
  as emitted by `json.dumps`).
* `split_param_columns`, `render_param_elem`, the visibility callbacks, the
  open/close menu callback and `figure_callback` are translated function by
  function; exceptions become `Except`/`Option` results, `PreventUpdate` is
  the `none` outcome of `figure_callback`.
-/

namespace MDF

/-! ## JSON value model -/

/-- A scalar JSON value: the native shape of a single control's value.
`jnum` is an exact decimal: sign, integer part, fractional digits
(so `2` and `2.0` stay distinct, as for `json.loads`). -/
inductive JScalar where
  | jnull
  | jbool (b : Bool)
  | jnum (neg : Bool) (ip : Nat) (frac : List (Fin 10))
  | jstr (s : String)
deriving DecidableEq, Repr

/-- A control value: a scalar, or an array of scalars (multi-select). -/
inductive JVal where
  | scalar (v : JScalar)
  | jarr (elems : List JScalar)
deriving DecidableEq, Repr

/-- A snapshot: the mapping from `elem_id` to current value, in insertion
order, as built by `update_url`. -/
abbrev Snapshot := List (String × JVal)

/-- A whole parsed JSON document: either a top-level value or an object
(the shape `json.loads` returns for a settings document). -/
inductive JTop where
  | val (v : JVal)
  | jobj (fields : Snapshot)
deriving DecidableEq, Repr

/-! ## Digits -/

/-- One decimal digit rendered as a character. -/
def digitChar : Fin 10 → Char
  | 0 => '0' | 1 => '1' | 2 => '2' | 3 => '3' | 4 => '4'
  | 5 => '5' | 6 => '6' | 7 => '7' | 8 => '8' | 9 => '9'

/-- Decode a character as a decimal digit. -/
def digitVal? (c : Char) : Option (Fin 10) :=
  if c = '0' then some 0 else if c = '1' then some 1
  else if c = '2' then some 2 else if c = '3' then some 3
  else if c = '4' then some 4 else if c = '5' then some 5
  else if c = '6' then some 6 else if c = '7' then some 7
  else if c = '8' then some 8 else if c = '9' then some 9
  else none

/-- The big-endian decimal digits of a natural number. -/
def natFins (n : Nat) : List (Fin 10) :=
  if n = 0 then [0]
  else (Nat.digits 10 n).reverse.map (fun d => (⟨d % 10, Nat.mod_lt d (by norm_num)⟩ : Fin 10))

/-- The decimal character rendering of a natural number. -/
def natChars (n : Nat) : List Char := (natFins n).map digitChar

/-- The value of a big-endian digit string. -/
def foldDigits (l : List (Fin 10)) : Nat :=
  l.foldl (fun a d => a * 10 + d.val) 0

/-! ## Serialization (the model of `json.dumps`) -/

/-- Escape the content of a JSON string: `"` and `\` get a backslash. -/
def escapeChars : List Char → List Char
  | [] => []
  | c :: cs => (if c = '"' ∨ c = '\\' then ['\\', c] else [c]) ++ escapeChars cs

/-- Serialize a JSON string (quotes plus escaped content). -/
def serStr (s : String) : List Char := '"' :: (escapeChars s.data ++ ['"'])

/-- Serialize a scalar. -/
def serScalar : JScalar → List Char
  | .jnull => ['n', 'u', 'l', 'l']
  | .jbool true => ['t', 'r', 'u', 'e']
  | .jbool false => ['f', 'a', 'l', 's', 'e']
  | .jnum neg ip frac =>
      (if neg then ['-'] else []) ++ natChars ip ++
        (if frac = [] then [] else '.' :: frac.map digitChar)
  | .jstr s => serStr s

/-- Join serialized items with the `", "` separator emitted by `json.dumps`. -/
def joinComma : List (List Char) → List Char
  | [] => []
  | [x] => x
  | x :: xs => x ++ ',' :: ' ' :: joinComma xs

/-- Serialize a control value. -/
def serVal : JVal → List Char
  | .scalar v => serScalar v
  | .jarr l => '[' :: (joinComma (l.map serScalar) ++ [']'])

/-- Serialize one `key: value` member of an object. -/
def serField (kv : String × JVal) : List Char :=
  serStr kv.1 ++ ':' :: ' ' :: serVal kv.2

/-- Serialize a document (model of `json.dumps`). -/
def serTop : JTop → List Char
  | .val v => serVal v
  | .jobj l => '{' :: (joinComma (l.map serField) ++ ['}'])

/-! ## Parsing (the model of `json.loads`) -/

/-- JSON whitespace. -/
def isWsChar (c : Char) : Bool :=
  c = ' ' ∨ c = '\t' ∨ c = '\n' ∨ c = '\r'

/-- Skip insignificant whitespace. -/
def skipSep (cs : List Char) : List Char := cs.dropWhile isWsChar

/-- Read the content of a string after the opening quote; returns the
content and the characters after the closing quote. -/
def readStr : List Char → Option (List Char × List Char)
  | [] => none
  | c :: rest =>
    if c = '"' then some ([], rest)
    else if c = '\\' then
      match rest with
      | [] => none
      | e :: rest2 =>
        if e = '"' ∨ e = '\\' then
          match readStr rest2 with
          | some (s, r) => some (e :: s, r)
          | none => none
        else none
    else
      match readStr rest with
      | some (s, r) => some (c :: s, r)
      | none => none

/-- Read a maximal run of decimal digits. -/
def readDigits : List Char → List (Fin 10) × List Char
  | [] => ([], [])
  | c :: rest =>
    match digitVal? c with
    | some d =>
      let p := readDigits rest
      (d :: p.1, p.2)
    | none => ([], c :: rest)

/-- Parse the digits of a number after an optional sign. -/
def parseNumBody (neg : Bool) (cs : List Char) : Option (JScalar × List Char) :=
  match readDigits cs with
  | ([], _) => none
  | (d :: ds, r) =>
    if r.head? = some '.' then
      match readDigits r.tail with
      | ([], _) => none
      | (f :: fs, r2) => some (.jnum neg (foldDigits (d :: ds)) (f :: fs), r2)
    else some (.jnum neg (foldDigits (d :: ds)) [], r)

/-- Parse a number (optional sign, digits, optional fraction). -/
def parseNum (cs : List Char) : Option (JScalar × List Char) :=
  if cs.head? = some '-' then parseNumBody true cs.tail
  else parseNumBody false cs

/-- Parse a scalar value. -/
def parseScalar (cs : List Char) : Option (JScalar × List Char) :=
  match cs with
  | [] => none
  | c :: rest =>
    if c = 'n' then
      (if rest.take 3 = ['u', 'l', 'l'] then some (.jnull, rest.drop 3) else none)
    else if c = 't' then
      (if rest.take 3 = ['r', 'u', 'e'] then some (.jbool true, rest.drop 3) else none)
    else if c = 'f' then
      (if rest.take 4 = ['a', 'l', 's', 'e'] then some (.jbool false, rest.drop 4) else none)
    else if c = '"' then
      match readStr rest with
      | some (s, r) => some (.jstr (String.mk s), r)
      | none => none
    else if c = '-' ∨ (digitVal? c).isSome then parseNum (c :: rest)
    else none

/-- Parse the comma-separated items of a non-empty array, up to and
including the closing bracket. `fuel` bounds the number of items. -/
def parseArrItems : Nat → List Char → Option (List JScalar × List Char)
  | 0, _ => none
  | fuel + 1, cs =>
    match parseScalar cs with
    | none => none
    | some (v, r) =>
      match skipSep r with
      | ',' :: r2 =>
        match parseArrItems fuel (skipSep r2) with
        | some (vs, r3) => some (v :: vs, r3)
        | none => none
      | ']' :: r2 => some ([v], r2)
      | _ => none

/-- Parse a control value: an array or a scalar. -/
def parseVal (cs : List Char) : Option (JVal × List Char) :=
  if cs.head? = some '[' then
    let body := skipSep cs.tail
    if body.head? = some ']' then some (.jarr [], body.tail)
    else
      match parseArrItems (cs.tail.length + 1) body with
      | some (vs, r) => some (.jarr vs, r)
      | none => none
  else
    match parseScalar cs with
    | some (v, r) => some (.scalar v, r)
    | none => none

/-- Parse the members of a non-empty object, up to and including the
closing brace. `fuel` bounds the number of members. -/
def parseObjItems : Nat → List Char → Option (Snapshot × List Char)
  | 0, _ => none
  | fuel + 1, cs =>
    if cs.head? = some '"' then
      match readStr cs.tail with
      | none => none
      | some (k, r) =>
        match skipSep r with
        | ':' :: r2 =>
          match parseVal (skipSep r2) with
          | none => none
          | some (v, r3) =>
            match skipSep r3 with
            | ',' :: r4 =>
              match parseObjItems fuel (skipSep r4) with
              | some (fields, r5) => some ((String.mk k, v) :: fields, r5)
              | none => none
            | '}' :: r4 => some ([(String.mk k, v)], r4)
            | _ => none
        | _ => none
    else none

/-- Parse a whole document (model of `json.loads`): optional surrounding
whitespace, then one object or value, then end of input. -/
def parseTop (cs : List Char) : Option JTop :=
  let cs0 := skipSep cs
  if cs0.head? = some '{' then
    let body := skipSep cs0.tail
    if body.head? = some '}' then
      if skipSep body.tail = [] then some (.jobj []) else none
    else
      match parseObjItems (cs0.tail.length + 1) body with
      | some (fields, r) => if skipSep r = [] then some (.jobj fields) else none
      | none => none
  else
    match parseVal cs0 with
    | some (v, r) => if skipSep r = [] then some (.val v) else none
    | none => none

/-- `parse_params` (`app.py`): parse the serialized settings JSON.
`json.loads` raising `JSONDecodeError` is modelled by `none`. -/
def parse_params (s : String) : Option JTop := parseTop s.data

/-- `update_url` (`app.py`): collect the live control values into a
mapping `elem_id -> value` and serialize it as JSON. -/
def update_url (input_elements : Snapshot) : String :=
  String.mk (serTop (.jobj input_elements))

/-! ## Round-trip lemmas: `parseTop` inverts `serTop` -/

/-- The head of `cs` (if any) cannot continue a number. -/
def noNumHead (cs : List Char) : Prop :=
  ∀ c, cs.head? = some c → digitVal? c = none ∧ c ≠ '.'

theorem noNumHead_nil : noNumHead [] := by
  intro c h
  simp at h

theorem noNumHead_cons {c : Char} {t : List Char}
    (h1 : digitVal? c = none) (h2 : c ≠ '.') : noNumHead (c :: t) := by
  intro c' h
  simp at h
  exact h ▸ ⟨h1, h2⟩

theorem digitVal?_digitChar : ∀ d : Fin 10, digitVal? (digitChar d) = some d := by
  decide

theorem isWsChar_space : isWsChar ' ' = true := by decide

theorem skipSep_cons_of {c : Char} (t : List Char) (h : isWsChar c = false) :
    skipSep (c :: t) = c :: t := by
  simp [skipSep, List.dropWhile_cons, h]

theorem skipSep_space (t : List Char) : skipSep (' ' :: t) = skipSep t := by
  simp [skipSep, List.dropWhile_cons, isWsChar_space]

theorem natFins_ne_nil (n : Nat) : natFins n ≠ [] := by
  unfold natFins
  by_cases h : n = 0
  · simp [h]
  · simp [h, Nat.digits_ne_nil_iff_ne_zero.mpr h]

theorem foldl_horner : ∀ (l : List ℕ) (a : ℕ),
    l.reverse.foldl (fun x d => x * 10 + d) a = a * 10 ^ l.length + Nat.ofDigits 10 l := by
  intro l
  induction l with
  | nil => intro a; simp
  | cons d t ih =>
    intro a
    simp only [List.reverse_cons, List.foldl_append, ih a, List.foldl_cons, List.foldl_nil,
      Nat.ofDigits_cons, List.length_cons, pow_succ]
    ring

theorem foldl_mod_digits : ∀ (l : List ℕ), (∀ d ∈ l, d < 10) → ∀ a : ℕ,
    l.foldl (fun x d => x * 10 + d % 10) a = l.foldl (fun x d => x * 10 + d) a := by
  intro l
  induction l with
  | nil => intro _ a; rfl
  | cons d t ih =>
    intro h a
    have hd : d % 10 = d := Nat.mod_eq_of_lt (h d (by simp))
    simp only [List.foldl_cons, hd]
    exact ih (fun x hx => h x (by simp [hx])) _

theorem foldDigits_natFins (n : Nat) : foldDigits (natFins n) = n := by
  unfold foldDigits natFins
  by_cases h : n = 0
  · simp [h]
  · simp only [h, if_false, List.foldl_map]
    have hlt : ∀ d ∈ (Nat.digits 10 n).reverse, d < 10 := by
      intro d hd
      exact Nat.digits_lt_base (by norm_num) (List.mem_reverse.mp hd)
    have := foldl_mod_digits (Nat.digits 10 n).reverse hlt 0
    simp only [Fin.val] at *
    calc (Nat.digits 10 n).reverse.foldl
          (fun a d => a * 10 + (⟨d % 10, Nat.mod_lt d (by norm_num)⟩ : Fin 10).val) 0
        = (Nat.digits 10 n).reverse.foldl (fun a d => a * 10 + d % 10) 0 := rfl
      _ = (Nat.digits 10 n).reverse.foldl (fun a d => a * 10 + d) 0 := this
      _ = 0 * 10 ^ (Nat.digits 10 n).length + Nat.ofDigits 10 (Nat.digits 10 n) :=
          foldl_horner _ 0
      _ = n := by simpa using congrArg id (Nat.ofDigits_digits 10 n)

/-- The head of `cs` is not a digit. -/
def noDigitHead (cs : List Char) : Prop :=
  ∀ c, cs.head? = some c → digitVal? c = none

theorem readDigits_append : ∀ (ds : List (Fin 10)) (rest : List Char),
    noDigitHead rest → readDigits (ds.map digitChar ++ rest) = (ds, rest) := by
  intro ds
  induction ds with
  | nil =>
    intro rest h
    cases rest with
    | nil => rfl
    | cons c t =>
      have := h c (by simp)
      simp [readDigits, this]
  | cons d ds ih =>
    intro rest h
    simp only [List.map_cons, List.cons_append, readDigits, digitVal?_digitChar d,
      List.append_eq, ih rest h]

theorem readStr_escape : ∀ (s : List Char) (rest : List Char),
    readStr (escapeChars s ++ '"' :: rest) = some (s, rest) := by
  intro s
  induction s with
  | nil =>
    intro rest
    rw [escapeChars, List.nil_append, readStr.eq_def]
    simp
  | cons c cs ih =>
    intro rest
    by_cases h : c = '"' ∨ c = '\\'
    · simp only [escapeChars, if_pos h, List.cons_append, List.append_assoc]
      rw [readStr.eq_def]
      simp [ih rest]
      tauto
    · have hc : ¬(c = '"' ∨ c = '\\') := h
      push_neg at h
      simp only [escapeChars, if_neg hc, List.cons_append, List.nil_append]
      rw [readStr.eq_def]
      simp [h.1, h.2, ih rest]

theorem digitChar_props : ∀ d : Fin 10,
    (digitVal? (digitChar d)).isSome = true ∧ digitChar d ≠ '-' ∧ digitChar d ≠ 'n' ∧
    digitChar d ≠ 't' ∧ digitChar d ≠ 'f' ∧ digitChar d ≠ '"' ∧ digitChar d ≠ '[' ∧
    digitChar d ≠ ']' ∧ digitChar d ≠ '{' ∧ digitChar d ≠ '}' ∧
    isWsChar (digitChar d) = false := by
  decide

theorem natFins_cons (n : Nat) : ∃ d t, natFins n = d :: t := by
  cases h : natFins n with
  | nil => exact absurd h (natFins_ne_nil n)
  | cons d t => exact ⟨d, t, rfl⟩

theorem noDigitHead_of_noNumHead {rest : List Char} (h : noNumHead rest) :
    noDigitHead rest := fun c hc => (h c hc).1

theorem parseNumBody_core (neg : Bool) (ip : Nat) (frac : List (Fin 10)) (rest : List Char)
    (hr : noNumHead rest) :
    parseNumBody neg
      (natChars ip ++ ((if frac = [] then [] else '.' :: frac.map digitChar) ++ rest)) =
      some (.jnum neg ip frac, rest) := by
  obtain ⟨d, t, hdt⟩ := natFins_cons ip
  by_cases hf : frac = []
  · subst hf
    have h1 : readDigits (natChars ip ++ rest) = (natFins ip, rest) :=
      readDigits_append (natFins ip) rest (noDigitHead_of_noNumHead hr)
    have harg : natChars ip ++
        ((if ([] : List (Fin 10)) = [] then [] else '.' :: List.map digitChar ([] : List (Fin 10))) ++ rest) =
        natChars ip ++ rest := by simp
    rw [harg, parseNumBody.eq_def, h1, hdt]
    have hhd : rest.head? ≠ some '.' := by
      cases rest with
      | nil => simp
      | cons c t' =>
        have := (hr c (by simp)).2
        simp [this]
    simp only [if_neg hhd]
    rw [← hdt, foldDigits_natFins]
  · obtain ⟨f, fs, hffs⟩ := List.exists_cons_of_ne_nil hf
    simp only [if_neg hf]
    have hdot : noDigitHead ('.' :: (frac.map digitChar ++ rest)) := by
      intro c hc
      simp at hc
      subst hc
      decide
    have h1 : readDigits (natChars ip ++ ('.' :: (frac.map digitChar ++ rest))) =
        (natFins ip, '.' :: (frac.map digitChar ++ rest)) :=
      readDigits_append (natFins ip) _ hdot
    have h2 : readDigits (frac.map digitChar ++ rest) = (frac, rest) :=
      readDigits_append frac rest (noDigitHead_of_noNumHead hr)
    rw [parseNumBody.eq_def]
    simp only [List.cons_append, List.append_assoc] at h1 ⊢
    rw [h1, hdt]
    simp only [List.head?_cons, List.tail_cons, if_pos rfl]
    rw [h2, hffs, ← hffs, ← hdt, foldDigits_natFins]
    simp only [if_true]
    rw [hffs]

theorem parseScalar_ser (v : JScalar) (rest : List Char) (hr : noNumHead rest) :
    parseScalar (serScalar v ++ rest) = some (v, rest) := by
  cases v with
  | jnull => simp [serScalar, parseScalar]
  | jbool b => cases b <;> simp [serScalar, parseScalar]
  | jstr s =>
    have h : serStr s ++ rest = '"' :: (escapeChars s.data ++ '"' :: rest) := by
      simp [serStr]
    rw [serScalar, h, parseScalar.eq_def]
    simp [readStr_escape s.data rest]
  | jnum neg ip frac =>
    cases neg with
    | true =>
      have h : serScalar (.jnum true ip frac) ++ rest =
          '-' :: (natChars ip ++ ((if frac = [] then [] else '.' :: frac.map digitChar) ++ rest)) := by
        simp [serScalar]
      rw [h, parseScalar.eq_def]
      simp only []
      norm_num
      rw [parseNum]
      simp only [List.head?_cons, if_pos rfl, List.tail_cons]
      exact parseNumBody_core true ip frac rest hr
    | false =>
      obtain ⟨d, t, hdt⟩ := natFins_cons ip
      have hprops := digitChar_props d
      have h : serScalar (.jnum false ip frac) ++ rest =
          digitChar d :: (t.map digitChar ++ ((if frac = [] then [] else '.' :: frac.map digitChar) ++ rest)) := by
        simp [serScalar, natChars, hdt]
      rw [h, parseScalar.eq_def]
      simp only [if_neg hprops.2.2.1, if_neg hprops.2.2.2.1, if_neg hprops.2.2.2.2.1,
        if_neg hprops.2.2.2.2.2.1]
      rw [if_pos (Or.inr hprops.1)]
      rw [parseNum]
      have hne : (digitChar d :: (t.map digitChar ++ ((if frac = [] then [] else '.' :: frac.map digitChar) ++ rest))).head? ≠ some '-' := by
        simp [hprops.2.1]
      rw [if_neg hne]
      have hback : digitChar d :: (t.map digitChar ++ ((if frac = [] then [] else '.' :: frac.map digitChar) ++ rest)) =
          natChars ip ++ ((if frac = [] then [] else '.' :: frac.map digitChar) ++ rest) := by
        simp [natChars, hdt]
      rw [hback]
      exact parseNumBody_core false ip frac rest hr

theorem serScalar_cons : ∀ v : JScalar, ∃ c t, serScalar v = c :: t ∧
    isWsChar c = false ∧ c ≠ '[' ∧ c ≠ ']' ∧ c ≠ '{' ∧ c ≠ '}' := by
  intro v
  cases v with
  | jnull => exact ⟨'n', _, rfl, by decide, by decide, by decide, by decide, by decide⟩
  | jbool b =>
    cases b with
    | true => exact ⟨'t', _, rfl, by decide, by decide, by decide, by decide, by decide⟩
    | false => exact ⟨'f', _, rfl, by decide, by decide, by decide, by decide, by decide⟩
  | jstr s => exact ⟨'"', _, rfl, by decide, by decide, by decide, by decide, by decide⟩
  | jnum neg ip frac =>
    cases neg with
    | true =>
      refine ⟨'-', natChars ip ++ (if frac = [] then [] else '.' :: frac.map digitChar),
        ?_, by decide, by decide, by decide, by decide, by decide⟩
      simp [serScalar]
    | false =>
      obtain ⟨d, t, hdt⟩ := natFins_cons ip
      have hp := digitChar_props d
      refine ⟨digitChar d, t.map digitChar ++ (if frac = [] then [] else '.' :: frac.map digitChar),
        ?_, hp.2.2.2.2.2.2.2.2.2.2, hp.2.2.2.2.2.2.1,
        hp.2.2.2.2.2.2.2.1, hp.2.2.2.2.2.2.2.2.1, hp.2.2.2.2.2.2.2.2.2.1⟩
      simp [serScalar, natChars, hdt]

theorem serVal_cons : ∀ v : JVal, ∃ c t, serVal v = c :: t ∧
    isWsChar c = false ∧ c ≠ '{' := by
  intro v
  cases v with
  | scalar s =>
    obtain ⟨c, t, h, hws, _, _, hbr, _⟩ := serScalar_cons s
    exact ⟨c, t, by simp [serVal, h], hws, hbr⟩
  | jarr l => exact ⟨'[', _, rfl, by decide, by decide⟩

theorem serField_cons (kv : String × JVal) : ∃ t, serField kv = '"' :: t := by
  refine ⟨(escapeChars kv.1.data ++ ['"']) ++ ':' :: ' ' :: serVal kv.2, ?_⟩
  simp [serField, serStr]

theorem joinComma_cons_ex {α : Type} (f : α → List Char) (x : α) (xs : List α) :
    ∃ k, joinComma ((x :: xs).map f) = f x ++ k := by
  cases xs with
  | nil => exact ⟨[], by simp [joinComma]⟩
  | cons y ys => exact ⟨',' :: ' ' :: joinComma ((y :: ys).map f), by simp [joinComma]⟩

theorem joinComma_len : ∀ (ls : List (List Char)), (∀ x ∈ ls, 1 ≤ x.length) →
    ls.length ≤ (joinComma ls).length + 1 := by
  intro ls
  induction ls with
  | nil => simp
  | cons x xs ih =>
    intro h
    cases xs with
    | nil =>
      have := h x (by simp)
      simp [joinComma]
    | cons y ys =>
      have hy : (y :: ys).length ≤ (joinComma (y :: ys)).length + 1 :=
        ih (fun z hz => h z (by simp [hz]))
      have hx := h x (by simp)
      simp only [joinComma, List.length_append, List.length_cons] at *
      omega

theorem parseArrItems_ser : ∀ (l : List JScalar) (fuel : Nat) (rest : List Char),
    l ≠ [] → l.length ≤ fuel →
    parseArrItems fuel (joinComma (l.map serScalar) ++ ']' :: rest) = some (l, rest) := by
  intro l
  induction l with
  | nil => intro fuel rest h; exact absurd rfl h
  | cons v vs ih =>
    intro fuel rest _ hfuel
    cases fuel with
    | zero => simp at hfuel
    | succ f =>
      cases vs with
      | nil =>
        have hjc : joinComma ([v].map serScalar) = serScalar v := by simp [joinComma]
        rw [hjc, parseArrItems, parseScalar_ser v _ (noNumHead_cons (by decide) (by decide))]
        dsimp only
        rw [skipSep_cons_of _ (by decide : isWsChar ']' = false)]
        rfl
      | cons v' vs' =>
        have hjc : joinComma ((v :: v' :: vs').map serScalar) ++ ']' :: rest =
            serScalar v ++ ',' :: ' ' :: (joinComma ((v' :: vs').map serScalar) ++ ']' :: rest) := by
          simp [joinComma]
        rw [hjc, parseArrItems, parseScalar_ser v _ (noNumHead_cons (by decide) (by decide))]
        dsimp only
        rw [skipSep_cons_of _ (by decide : isWsChar ',' = false)]
        show (match parseArrItems f (skipSep (' ' :: (joinComma ((v' :: vs').map serScalar) ++ ']' :: rest))) with
          | some (vs2, r3) => some (v :: vs2, r3)
          | none => none) = some (v :: v' :: vs', rest)
        rw [skipSep_space]
        obtain ⟨k, hk⟩ := joinComma_cons_ex serScalar v' vs'
        obtain ⟨c, t, hct, hws, _⟩ := serScalar_cons v'
        have hsk : skipSep (joinComma ((v' :: vs').map serScalar) ++ ']' :: rest) =
            joinComma ((v' :: vs').map serScalar) ++ ']' :: rest := by
          rw [hk, hct]
          exact skipSep_cons_of _ hws
        rw [hsk, ih f rest (by simp) (by simp at hfuel ⊢; omega)]

theorem parseVal_ser (v : JVal) (rest : List Char) (hr : noNumHead rest) :
    parseVal (serVal v ++ rest) = some (v, rest) := by
  cases v with
  | scalar s =>
    obtain ⟨c, t, hct, _, hbr, _⟩ := serScalar_cons s
    have h1 : serVal (.scalar s) ++ rest = c :: (t ++ rest) := by simp [serVal, hct]
    rw [parseVal, h1, if_neg (by simp [hbr] : ¬(c :: (t ++ rest)).head? = some '[')]
    rw [← h1]
    have h2 : serVal (.scalar s) ++ rest = serScalar s ++ rest := by rw [serVal]
    rw [h2, parseScalar_ser s rest hr]
  | jarr l =>
    cases l with
    | nil =>
      have h1 : serVal (.jarr []) ++ rest = '[' :: ']' :: rest := by
        simp [serVal, joinComma]
      rw [h1]
      rfl
    | cons x xs =>
      have h1 : serVal (.jarr (x :: xs)) ++ rest =
          '[' :: (joinComma ((x :: xs).map serScalar) ++ ']' :: rest) := by
        simp [serVal]
      obtain ⟨k, hk⟩ := joinComma_cons_ex serScalar x xs
      obtain ⟨c, t, hct, hws, _, hrb, _⟩ := serScalar_cons x
      have hsk : skipSep (joinComma ((x :: xs).map serScalar) ++ ']' :: rest) =
          joinComma ((x :: xs).map serScalar) ++ ']' :: rest := by
        rw [hk, hct]
        simp only [List.cons_append]
        exact skipSep_cons_of _ hws
      rw [parseVal, h1]
      simp only [List.head?_cons, List.tail_cons, if_true]
      rw [hsk]
      rw [if_neg (by rw [hk, hct]; simp [hrb] :
        ¬(joinComma ((x :: xs).map serScalar) ++ ']' :: rest).head? = some ']')]
      have hlen : (x :: xs).length ≤ (joinComma ((x :: xs).map serScalar) ++ ']' :: rest).length + 1 := by
        have hjl := joinComma_len ((x :: xs).map serScalar) (by
          intro z hz
          simp only [List.mem_map] at hz
          obtain ⟨s, _, hs⟩ := hz
          obtain ⟨c2, t2, hct2, _⟩ := serScalar_cons s
          simp [← hs, hct2])
        simp only [List.length_map, List.length_cons] at hjl
        simp only [List.length_append, List.length_cons]
        omega
      rw [parseArrItems_ser (x :: xs) _ rest (by simp) hlen]

theorem parseObjItems_ser : ∀ (l : Snapshot) (fuel : Nat) (rest : List Char),
    l ≠ [] → l.length ≤ fuel →
    parseObjItems fuel (joinComma (l.map serField) ++ '}' :: rest) = some (l, rest) := by
  intro l
  induction l with
  | nil => intro fuel rest h; exact absurd rfl h
  | cons kv kvs ih =>
    intro fuel rest _ hfuel
    cases fuel with
    | zero => simp at hfuel
    | succ f =>
      obtain ⟨k, v⟩ := kv
      obtain ⟨c, t, hct, hws, _⟩ := serVal_cons v
      cases kvs with
      | nil =>
        have hjc : joinComma ([(k, v)].map serField) ++ '}' :: rest =
            '"' :: (escapeChars k.data ++ '"' :: (':' :: ' ' :: (serVal v ++ '}' :: rest))) := by
          simp [joinComma, serField, serStr]
        rw [parseObjItems, hjc]
        simp only [List.head?_cons, List.tail_cons, if_true]
        rw [readStr_escape k.data]
        show (match skipSep (':' :: ' ' :: (serVal v ++ '}' :: rest)) with
          | ':' :: r2 =>
            match parseVal (skipSep r2) with
            | none => none
            | some (v2, r3) =>
              match skipSep r3 with
              | ',' :: r4 =>
                match parseObjItems f (skipSep r4) with
                | some (fields, r5) => some ((String.mk k.data, v2) :: fields, r5)
                | none => none
              | '}' :: r4 => some ([(String.mk k.data, v2)], r4)
              | _ => none
          | _ => none) = some ([(k, v)], rest)
        rw [skipSep_cons_of _ (by decide : isWsChar ':' = false)]
        show (match parseVal (skipSep (' ' :: (serVal v ++ '}' :: rest))) with
          | none => none
          | some (v2, r3) =>
            match skipSep r3 with
            | ',' :: r4 =>
              match parseObjItems f (skipSep r4) with
              | some (fields, r5) => some ((String.mk k.data, v2) :: fields, r5)
              | none => none
            | '}' :: r4 => some ([(String.mk k.data, v2)], r4)
            | _ => none) = some ([(k, v)], rest)
        rw [skipSep_space]
        have hsv : skipSep (serVal v ++ '}' :: rest) = serVal v ++ '}' :: rest := by
          rw [hct]
          simp only [List.cons_append]
          exact skipSep_cons_of _ hws
        rw [hsv, parseVal_ser v _ (noNumHead_cons (by decide) (by decide))]
        dsimp only
        rw [skipSep_cons_of _ (by decide : isWsChar '}' = false)]
        rfl
      | cons kv2 kvs2 =>
        have hjc : joinComma (((k, v) :: kv2 :: kvs2).map serField) ++ '}' :: rest =
            '"' :: (escapeChars k.data ++ '"' ::
              (':' :: ' ' :: (serVal v ++
                ',' :: ' ' :: (joinComma ((kv2 :: kvs2).map serField) ++ '}' :: rest)))) := by
          simp [joinComma, serField, serStr]
        rw [parseObjItems, hjc]
        simp only [List.head?_cons, List.tail_cons, if_true]
        rw [readStr_escape k.data]
        show (match skipSep (':' :: ' ' :: (serVal v ++
              ',' :: ' ' :: (joinComma ((kv2 :: kvs2).map serField) ++ '}' :: rest))) with
          | ':' :: r2 =>
            match parseVal (skipSep r2) with
            | none => none
            | some (v2, r3) =>
              match skipSep r3 with
              | ',' :: r4 =>
                match parseObjItems f (skipSep r4) with
                | some (fields, r5) => some ((String.mk k.data, v2) :: fields, r5)
                | none => none
              | '}' :: r4 => some ([(String.mk k.data, v2)], r4)
              | _ => none
          | _ => none) = some ((k, v) :: kv2 :: kvs2, rest)
        rw [skipSep_cons_of _ (by decide : isWsChar ':' = false)]
        show (match parseVal (skipSep (' ' :: (serVal v ++
              ',' :: ' ' :: (joinComma ((kv2 :: kvs2).map serField) ++ '}' :: rest)))) with
          | none => none
          | some (v2, r3) =>
            match skipSep r3 with
            | ',' :: r4 =>
              match parseObjItems f (skipSep r4) with
              | some (fields, r5) => some ((String.mk k.data, v2) :: fields, r5)
              | none => none
            | '}' :: r4 => some ([(String.mk k.data, v2)], r4)
            | _ => none) = some ((k, v) :: kv2 :: kvs2, rest)
        rw [skipSep_space]
        have hsv : skipSep (serVal v ++
            ',' :: ' ' :: (joinComma ((kv2 :: kvs2).map serField) ++ '}' :: rest)) =
            serVal v ++ ',' :: ' ' :: (joinComma ((kv2 :: kvs2).map serField) ++ '}' :: rest) := by
          rw [hct]
          simp only [List.cons_append]
          exact skipSep_cons_of _ hws
        rw [hsv, parseVal_ser v _ (noNumHead_cons (by decide) (by decide))]
        dsimp only
        rw [skipSep_cons_of _ (by decide : isWsChar ',' = false)]
        show (match parseObjItems f
              (skipSep (' ' :: (joinComma ((kv2 :: kvs2).map serField) ++ '}' :: rest))) with
          | some (fields, r5) => some ((String.mk k.data, v) :: fields, r5)
          | none => none) = some ((k, v) :: kv2 :: kvs2, rest)
        rw [skipSep_space]
        obtain ⟨k2, hk2⟩ := joinComma_cons_ex serField kv2 kvs2
        obtain ⟨t2, ht2⟩ := serField_cons kv2
        have hsk : skipSep (joinComma ((kv2 :: kvs2).map serField) ++ '}' :: rest) =
            joinComma ((kv2 :: kvs2).map serField) ++ '}' :: rest := by
          rw [hk2, ht2]
          simp only [List.cons_append]
          exact skipSep_cons_of _ (by decide)
        rw [hsk, ih f rest (by simp) (by simp at hfuel ⊢; omega)]

/-- `parseTop` inverts `serTop`: the serialize/parse round trip. -/
theorem parseTop_serTop : ∀ t : JTop, parseTop (serTop t) = some t := by
  intro t
  cases t with
  | val v =>
    obtain ⟨c, t, hct, hws, hbr⟩ := serVal_cons v
    rw [parseTop]
    have hsk : skipSep (serTop (.val v)) = serVal v := by
      show skipSep (serVal v) = serVal v
      rw [hct]
      exact skipSep_cons_of _ hws
    simp only [hsk]
    rw [if_neg (by simp [hct, hbr] : ¬(serVal v).head? = some '{')]
    have hv : serVal v = serVal v ++ [] := by simp
    rw [hv, parseVal_ser v [] noNumHead_nil]
    rfl
  | jobj l =>
    cases l with
    | nil =>
      have hser : serTop (.jobj []) = '{' :: '}' :: [] := by simp [serTop, joinComma]
      rw [parseTop, hser]
      rfl
    | cons kv kvs =>
      rw [parseTop]
      have hser : serTop (.jobj (kv :: kvs)) =
          '{' :: (joinComma ((kv :: kvs).map serField) ++ '}' :: []) := by
        simp [serTop]
      rw [hser, skipSep_cons_of _ (by decide : isWsChar '{' = false)]
      simp only [List.head?_cons, List.tail_cons, if_true]
      obtain ⟨k2, hk2⟩ := joinComma_cons_ex serField kv kvs
      obtain ⟨t2, ht2⟩ := serField_cons kv
      have hsk : skipSep (joinComma ((kv :: kvs).map serField) ++ '}' :: []) =
          joinComma ((kv :: kvs).map serField) ++ '}' :: [] := by
        rw [hk2, ht2]
        simp only [List.cons_append]
        exact skipSep_cons_of _ (by decide)
      simp only [hsk]
      rw [if_neg (by rw [hk2, ht2]; simp :
        ¬(joinComma ((kv :: kvs).map serField) ++ '}' :: []).head? = some '}')]
      have hlen : (kv :: kvs).length ≤ (joinComma ((kv :: kvs).map serField) ++ '}' :: []).length + 1 := by
        have hjl := joinComma_len ((kv :: kvs).map serField) (by
          intro z hz
          simp only [List.mem_map] at hz
          obtain ⟨ab, _, hab⟩ := hz
          obtain ⟨tf, htf⟩ := serField_cons ab
          simp [← hab, htf])
        simp only [List.length_map, List.length_cons] at hjl
        simp only [List.length_append, List.length_cons]
        omega
      rw [parseObjItems_ser (kv :: kvs) _ [] (by simp) hlen]
      rfl

/-- Serialize-then-parse round trip for every snapshot the settings store
produces. -/
theorem parse_params_update_url (elems : Snapshot) :
    parse_params (update_url elems) = some (.jobj elems) := by
  show parseTop (String.mk (serTop (.jobj elems))).data = some (.jobj elems)
  exact parseTop_serTop (.jobj elems)
/-! ## The `lru_cache` on `parse_params` -/

/-- Model of the `functools.lru_cache(maxsize=128)` wrapper on
`parse_params`: an MRU-ordered association list. A hit moves the entry to
the front; a miss computes `parse_params`, caches a successful result and
evicts beyond capacity 128. A parse failure (an exception in Python)
is returned without being cached, as `lru_cache` does. -/
def parse_params_cached (cache : List (String × Option JTop)) (s : String) :
    Option JTop × List (String × Option JTop) :=
  match cache.lookup s with
  | some v => (v, (s, v) :: cache.filter (fun kv => !(kv.1 == s)))
  | none =>
    match parse_params s with
    | some v => (some v, ((s, some v) :: cache).take 128)
    | none => (none, cache)

/-- A cache state is well formed when every entry records the parse of its
key (true of every state reachable from the empty cache). -/
def cache_wf (cache : List (String × Option JTop)) : Prop :=
  ∀ kv ∈ cache, kv.2 = parse_params kv.1

theorem lookup_wf : ∀ (cache : List (String × Option JTop)), cache_wf cache →
    ∀ s v, cache.lookup s = some v → v = parse_params s := by
  intro cache
  induction cache with
  | nil => intro _ s v h; simp [List.lookup] at h
  | cons kv t ih =>
    intro hwf s v h
    obtain ⟨k, w⟩ := kv
    rw [List.lookup] at h
    cases he : s == k
    · rw [he] at h
      exact ih (fun kv2 hkv2 => hwf kv2 (by simp [hkv2])) s v h
    · rw [he] at h
      simp at h
      have hk : s = k := by
        have := he
        exact eq_of_beq this
      have hw : w = parse_params k := hwf (k, w) (by simp)
      rw [← h, hk]
      exact hw

/-- The cache is observationally transparent: on a well-formed state the
cached lookup returns exactly `parse_params s`, and well-formedness is
preserved. -/
theorem parse_params_cached_spec (cache : List (String × Option JTop)) (s : String)
    (h : cache_wf cache) :
    (parse_params_cached cache s).1 = parse_params s ∧
    cache_wf (parse_params_cached cache s).2 := by
  unfold parse_params_cached
  cases hl : cache.lookup s with
  | some v =>
    have hv : v = parse_params s := lookup_wf cache h s v hl
    refine ⟨hv, ?_⟩
    intro kv hkv
    simp only [List.mem_cons] at hkv
    cases hkv with
    | inl heq => rw [heq, hv]
    | inr hmem => exact h kv (List.mem_of_mem_filter hmem)
  | none =>
    cases hp : parse_params s with
    | some v =>
      refine ⟨rfl, ?_⟩
      intro kv hkv
      have := List.take_subset 128 ((s, some v) :: cache) hkv
      simp only [List.mem_cons] at this
      cases this with
      | inl heq => rw [heq, hp]
      | inr hmem => exact h kv hmem
    | none => exact ⟨rfl, h⟩

/-! ## Menu schema data model -/

/-- A conditional-visibility rule (`show_if` / `hide_if` value in the
schema): the Python source reads its `target` and `value` keys with
`.get`, so both are optional here. -/
structure VisRule where
  target : Option String := none
  value : Option (List JVal) := none
deriving DecidableEq, Repr

/-- One entry of a dropdown/selector `options` list: either a bare string
(allowed for selectors) or a `label`/`value` dict with an optional
`show` flag (`oshow` here; defaults to true via `.get('show', True)`). -/
inductive OptEntry where
  | scalar (s : String)
  | labeled (label : String) (value : JVal) (oshow : Bool)
deriving DecidableEq, Repr

/-- A `ParamItem` of the schema. `ptype` is the `type` field and `pshow`
the `show` field (both Lean keywords). Keys the source reads with `.get`
(`show`, `keep_with_previous`, `value`, `suffix`, `show_if`, `hide_if`)
carry their Python defaults; keys it indexes unconditionally are plain
fields. Numeric slider bounds are exact rationals. -/
structure ParamItem where
  elem_id : String := ""
  ptype : String := ""
  label : String := ""
  value : Option JVal := none
  options : List OptEntry := []
  min_val : Rat := 0
  max_val : Rat := 0
  step : Rat := 0
  suffix : String := ""
  input_type : String := ""
  pshow : Bool := true
  keep_with_previous : Bool := false
  show_if : Option VisRule := none
  hide_if : Option VisRule := none
deriving DecidableEq, Repr

/-- A menu: a label and an ordered parameter list. -/
structure Menu where
  label : String := ""
  params : List ParamItem := []
deriving DecidableEq, Repr

/-! ## `split_param_columns` -/

/-- The split-point search of `split_param_columns`: the Python loop skips
index 0, skips items with `keep_with_previous`, and stops at the first
index at or past `len/ncols` (`float(i) >= len/ncols`, i.e.
`len <= i * ncols`). -/
def findSplitIx (l : List ParamItem) (ncols : Nat) : Option Nat :=
  (List.range l.length).find? (fun i =>
    decide (1 ≤ i) && !((l[i]?.map (fun p => p.keep_with_previous)).getD false) &&
    decide (l.length ≤ i * ncols))

/-- `split_param_columns` (`app.py`), recursion made structural on a fuel
argument: the Python recursion is on `l.drop i` with `1 ≤ i`, so
`l.length` is always enough fuel and the fuel-exhausted branch is
unreachable from `split_param_columns`. -/
def split_go : Nat → List ParamItem → Nat → List (List ParamItem)
  | fuel, l, ncols =>
    if l.length = 0 then []
    else if l.length = 1 then [l]
    else if ncols = 1 then [l]
    else
      match findSplitIx l ncols, fuel with
      | some i, Nat.succ fuel2 => l.take i :: split_go fuel2 (l.drop i) (ncols - 1)
      | some _, 0 => [l]
      | none, _ => [l]

/-- `split_param_columns` (`app.py`): split an ordered parameter list
into at most `ncols` columns, keeping `keep_with_previous` items with
their predecessor. -/
def split_param_columns (l : List ParamItem) (ncols : Nat) : List (List ParamItem) :=
  split_go l.length l ncols

theorem findSplitIx_spec {l : List ParamItem} {ncols i : Nat}
    (h : findSplitIx l ncols = some i) :
    1 ≤ i ∧ i < l.length ∧
    (l[i]?.map (fun p => p.keep_with_previous)).getD false = false ∧
    l.length ≤ i * ncols := by
  unfold findSplitIx at h
  have h1 := List.find?_some h
  have h2 := List.mem_of_find?_eq_some h
  simp only [List.mem_range] at h2
  simp only [Bool.and_eq_true, decide_eq_true_eq, Bool.not_eq_true'] at h1
  exact ⟨h1.1.1, h2, h1.1.2, h1.2⟩

theorem singleton_getElem_none {α : Type} (x : α) (j : Nat) (hj : 1 ≤ j) :
    ([x] : List α)[j]? = none := by
  apply List.getElem?_eq_none
  simpa using hj

theorem split_go_join : ∀ (fuel : Nat) (l : List ParamItem) (ncols : Nat),
    l.length ≤ fuel → (split_go fuel l ncols).flatten = l := by
  intro fuel
  induction fuel with
  | zero =>
    intro l ncols h
    have hl : l = [] := List.length_eq_zero.mp (Nat.le_zero.mp h)
    subst hl
    rfl
  | succ f ih =>
    intro l ncols h
    rw [split_go.eq_def]
    by_cases h0 : l.length = 0
    · simp [h0, List.length_eq_zero.mp h0]
    by_cases h1 : l.length = 1
    · simp [h0, h1]
    by_cases hn : ncols = 1
    · simp [h0, h1, hn]
    simp only [if_neg h0, if_neg h1, if_neg hn]
    cases hfind : findSplitIx l ncols with
    | none =>
      show ([l] : List (List ParamItem)).flatten = l
      simp
    | some i =>
      obtain ⟨hi1, hilt, _, _⟩ := findSplitIx_spec hfind
      have hrec : (l.drop i).length ≤ f := by
        simp only [List.length_drop]
        omega
      show (l.take i :: split_go f (l.drop i) (ncols - 1)).flatten = l
      simp only [List.flatten_cons, ih (l.drop i) (ncols - 1) hrec, List.take_append_drop]

theorem split_go_first_head : ∀ (fuel : Nat) (l : List ParamItem) (ncols : Nat),
    l ≠ [] → ∃ c cs, split_go fuel l ncols = c :: cs ∧ c.head? = l.head? := by
  intro fuel l ncols hne
  rw [split_go.eq_def]
  dsimp only
  have h0 : ¬l.length = 0 := by simp [hne]
  rw [if_neg h0]
  by_cases h1 : l.length = 1
  · rw [if_pos h1]
    exact ⟨l, [], rfl, rfl⟩
  rw [if_neg h1]
  by_cases hn : ncols = 1
  · rw [if_pos hn]
    exact ⟨l, [], rfl, rfl⟩
  rw [if_neg hn]
  cases hfind : findSplitIx l ncols with
  | none => exact ⟨l, [], rfl, rfl⟩
  | some i =>
    obtain ⟨hi1, hilt, _, _⟩ := findSplitIx_spec hfind
    cases fuel with
    | zero => exact ⟨l, [], rfl, rfl⟩
    | succ f =>
      refine ⟨l.take i, split_go f (l.drop i) (ncols - 1), rfl, ?_⟩
      cases l with
      | nil => exact absurd rfl hne
      | cons a t =>
        obtain ⟨i2, hi2⟩ : ∃ i2, i = i2 + 1 := ⟨i - 1, by omega⟩
        subst hi2
        simp [List.take]

theorem split_go_keep : ∀ (fuel : Nat) (l : List ParamItem) (ncols j : Nat)
    (col : List ParamItem) (p : ParamItem),
    (split_go fuel l ncols)[j]? = some col → 1 ≤ j → col.head? = some p →
    p.keep_with_previous = false := by
  intro fuel
  induction fuel with
  | zero =>
    intro l ncols j col p hcol hj _
    rw [split_go.eq_def] at hcol
    by_cases h0 : l.length = 0
    · simp [h0] at hcol
    by_cases h1 : l.length = 1
    · simp only [if_neg h0, if_pos h1] at hcol
      rw [singleton_getElem_none l j hj] at hcol
      exact absurd hcol (by simp)
    by_cases hn : ncols = 1
    · simp only [if_neg h0, if_neg h1, if_pos hn] at hcol
      rw [singleton_getElem_none l j hj] at hcol
      exact absurd hcol (by simp)
    simp only [if_neg h0, if_neg h1, if_neg hn] at hcol
    cases hfind : findSplitIx l ncols with
    | none =>
      rw [hfind] at hcol
      have hcol2 : ([l] : List (List ParamItem))[j]? = some col := hcol
      rw [singleton_getElem_none l j hj] at hcol2
      exact absurd hcol2 (by simp)
    | some i =>
      rw [hfind] at hcol
      have hcol2 : ([l] : List (List ParamItem))[j]? = some col := hcol
      rw [singleton_getElem_none l j hj] at hcol2
      exact absurd hcol2 (by simp)
  | succ f ih =>
    intro l ncols j col p hcol hj hhead
    rw [split_go.eq_def] at hcol
    by_cases h0 : l.length = 0
    · simp [h0] at hcol
    by_cases h1 : l.length = 1
    · simp only [if_neg h0, if_pos h1] at hcol
      rw [singleton_getElem_none l j hj] at hcol
      exact absurd hcol (by simp)
    by_cases hn : ncols = 1
    · simp only [if_neg h0, if_neg h1, if_pos hn] at hcol
      rw [singleton_getElem_none l j hj] at hcol
      exact absurd hcol (by simp)
    simp only [if_neg h0, if_neg h1, if_neg hn] at hcol
    cases hfind : findSplitIx l ncols with
    | none =>
      rw [hfind] at hcol
      have hcol2 : ([l] : List (List ParamItem))[j]? = some col := hcol
      rw [singleton_getElem_none l j hj] at hcol2
      exact absurd hcol2 (by simp)
    | some i =>
      rw [hfind] at hcol
      obtain ⟨hi1, hilt, hkeep, _⟩ := findSplitIx_spec hfind
      have hcol2 : (l.take i :: split_go f (l.drop i) (ncols - 1))[j]? = some col := hcol
      rw [List.getElem?_cons] at hcol2
      rw [if_neg (by omega : ¬j = 0)] at hcol2
      by_cases hj1 : j - 1 = 0
      · have hdne : l.drop i ≠ [] := by
          intro hd
          have hld := List.length_drop i l
          rw [hd] at hld
          simp at hld
          omega
        obtain ⟨c, cs, hccs, hch⟩ := split_go_first_head f (l.drop i) (ncols - 1) hdne
        rw [hccs, hj1] at hcol2
        simp at hcol2
        rw [← hcol2] at hhead
        rw [List.head?_drop] at hch
        cases hli : l[i]? with
        | none =>
          rw [hli] at hch
          rw [hch] at hhead
          simp at hhead
        | some q =>
          rw [hli] at hch
          rw [hch] at hhead
          simp at hhead
          rw [hli] at hkeep
          simp at hkeep
          rw [← hhead]
          exact hkeep
      · exact ih (l.drop i) (ncols - 1) (j - 1) col p hcol2 (by omega) hhead

theorem split_go_length : ∀ (fuel : Nat) (l : List ParamItem) (ncols : Nat),
    1 ≤ ncols →
    (split_go fuel l ncols).length ≤ ncols ∧
    (split_go fuel l ncols = [] ↔ l = []) := by
  intro fuel
  induction fuel with
  | zero =>
    intro l ncols hn1
    rw [split_go.eq_def]
    by_cases h0 : l.length = 0
    · simp [h0, List.length_eq_zero.mp h0]
    have hlne : l ≠ [] := by
      intro hl
      rw [hl] at h0
      exact h0 rfl
    by_cases h1 : l.length = 1
    · simp only [if_neg h0, if_pos h1]
      exact ⟨by simpa using hn1, by simp [hlne]⟩
    by_cases hn : ncols = 1
    · simp only [if_neg h0, if_neg h1, if_pos hn]
      exact ⟨by simp [hn], by simp [hlne]⟩
    simp only [if_neg h0, if_neg h1, if_neg hn]
    cases hfind : findSplitIx l ncols with
    | none => exact ⟨by simpa using hn1, by simp [hlne]⟩
    | some i => exact ⟨by simpa using hn1, by simp [hlne]⟩
  | succ f ih =>
    intro l ncols hn1
    rw [split_go.eq_def]
    by_cases h0 : l.length = 0
    · simp [h0, List.length_eq_zero.mp h0]
    have hlne : l ≠ [] := by
      intro hl
      rw [hl] at h0
      exact h0 rfl
    by_cases h1 : l.length = 1
    · simp only [if_neg h0, if_pos h1]
      exact ⟨by simpa using hn1, by simp [hlne]⟩
    by_cases hn : ncols = 1
    · simp only [if_neg h0, if_neg h1, if_pos hn]
      exact ⟨by simp [hn], by simp [hlne]⟩
    simp only [if_neg h0, if_neg h1, if_neg hn]
    cases hfind : findSplitIx l ncols with
    | none => exact ⟨by simpa using hn1, by simp [hlne]⟩
    | some i =>
      have hrec := (ih (l.drop i) (ncols - 1) (by omega)).1
      constructor
      · show (l.take i :: split_go f (l.drop i) (ncols - 1)).length ≤ ncols
        simp only [List.length_cons]
        omega
      · show l.take i :: split_go f (l.drop i) (ncols - 1) = [] ↔ l = []
        simp [hlne]

/-! ## Figures and the render pipeline -/

/-- A plotly figure, to the detail the source manipulates: the layout
fields `empty_plot` sets, plus the traces a user function draws. -/
structure Fig where
  xaxis_visible : Bool := true
  yaxis_visible : Bool := true
  plot_bgcolor : String := ""
  paper_bgcolor : String := ""
  traces : List String := []
deriving DecidableEq, Repr

/-- `empty_plot` (`app.py`): the shared placeholder figure. (Its
`lru_cache(maxsize=1)` only shares this one immutable value.) -/
def empty_plot : Fig :=
  { xaxis_visible := false
    yaxis_visible := false
    plot_bgcolor := "rgba(0, 0, 0, 0)"
    paper_bgcolor := "rgba(0, 0, 0, 0)" }

/-- The element that triggered `figure_callback`, from
`dash.callback_context.triggered[0]`: one of the three button kinds,
the `current-settings` input, or no trigger (prop_id `"."`). -/
inductive FigTrigger where
  | redrawBtn (menu : String)
  | closeBtn (menu : String)
  | openBtn (menu : String)
  | settingsChanged
  | noTrigger
deriving DecidableEq, Repr

/-- The source's `"close-button" in trigger or "redraw-button" in trigger`
test: menu ids are `menu-<ix>` / `header`, so the substring test holds
exactly for redraw-button and close-button prop_ids. -/
def is_redraw_trigger : FigTrigger → Bool
  | .redrawBtn _ => true
  | .closeBtn _ => true
  | _ => false

/-- The tail of `figure_callback` after the debounce gate: parse the
settings (outside any `try`, so a parse failure escapes as `.error`),
call the user drawing function inside `try`, and produce the outputs
`(figure, toast is_open, toast children)`. -/
def run_render {D : Type} (data : D)
    (drawing_function : D → JTop → Except String Fig) (selected_params : String) :
    Except String (Fig × Bool × Option String) :=
  match parse_params selected_params with
  | none => .error "JSONDecodeError"
  | some ps =>
    match drawing_function data ps with
    | .ok fig => .ok (fig, false, none)
    | .error e => .ok (empty_plot, true, some ("Unable to render -- " ++ e))

/-- `figure_callback` (`app.py`). `.ok (some out)` is a normal return of
the three outputs, `.ok none` is `raise PreventUpdate` (no update to the
figure or notification), and `.error` is an exception escaping the
callback uncaught. -/
def figure_callback {D : Type} (data : D)
    (drawing_function : D → JTop → Except String Fig)
    (open_clicks : List (Option Nat)) (trigger : FigTrigger)
    (selected_params : String) :
    Except String (Option (Fig × Bool × Option String)) :=
  if open_clicks.all (fun v => v.isNone) then
    (run_render data drawing_function selected_params).map some
  else if is_redraw_trigger trigger then
    (run_render data drawing_function selected_params).map some
  else
    .ok none

/-! ## Widget compiler: `render_param_elem` -/

/-- A number label on a slider mark: the value is rendered as an integer
when it is whole (`int(x) if x == int(x)`), as itself otherwise. -/
inductive NumLabel where
  | asInt (n : Int)
  | asRat (q : Rat)
deriving DecidableEq, Repr

/-- `int(x) if x == int(x) else x` of the slider mark rendering. -/
def fmt_mark (x : Rat) : NumLabel :=
  if x.den = 1 then .asInt x.num else .asRat x

/-- Insert a key into a Python dict modelled as an ordered association
list: overwrite in place when the key exists, else append. -/
def dict_insert (d : List (Rat × NumLabel × String)) (k : Rat) (v : NumLabel × String) :
    List (Rat × NumLabel × String) :=
  if d.any (fun kv => decide (kv.1 = k)) then
    d.map (fun kv => if kv.1 = k then (k, v) else kv)
  else d ++ [(k, v)]

/-- The `marks` dict of the slider branch of `render_param_elem`:
`{x: f"{x}{suffix}" for x in [min, mid, max]}` with each value rendered
per `fmt_mark`. -/
def slider_marks (min_val max_val : Rat) (sfx : String) : List (Rat × NumLabel × String) :=
  let mid_val := min_val + (max_val - min_val) / 2
  [min_val, mid_val, max_val].foldl
    (fun d x => dict_insert d x (fmt_mark x, sfx)) []

/-- A compiled control descriptor (one per recognized `type`). -/
inductive ControlElem where
  | dropdown (options : List (String × JVal)) (value : JVal)
  | checkbox (options : List (String × JVal)) (value : JVal)
  | selector (options : List (String × JVal)) (value : JVal)
  | slider (min_val max_val : Rat) (value : JVal)
      (marks : List (Rat × NumLabel × String)) (step : Rat)
  | input_field (input_type : String) (value : JVal)
deriving DecidableEq, Repr

/-- A compiled parameter: its label and control, wrapped in the
`"<elem_id>-collapse"` container, initially open. -/
structure RenderedElem where
  label : String
  elem : ControlElem
  collapse_id : String
  is_open : Bool
deriving DecidableEq, Repr

/-- Default value resolution of `render_param_elem`:
`initial_settings.get(elem_id, param_item.get("value", []))`. -/
def default_value (initial_settings : Snapshot) (p : ParamItem) : JVal :=
  match initial_settings.lookup p.elem_id with
  | some v => v
  | none => p.value.getD (.jarr [])

/-- Dropdown options: keep `label`/`value` of entries whose `show` flag
is not false; a bare-string entry raises (`i['label']` on a non-dict). -/
def dropdown_options : List OptEntry → Option (List (String × JVal))
  | [] => some []
  | .scalar _ :: _ => none
  | .labeled l v s :: rest =>
    match dropdown_options rest with
    | some opts => some (if s then (l, v) :: opts else opts)
    | none => none

/-- Selector options: a bare string becomes `{label: s, value: s}`; a
dict passes through. -/
def selector_option : OptEntry → String × JVal
  | .scalar s => (s, .scalar (.jstr s))
  | .labeled l v _ => (l, v)

/-- `render_param_elem` (`app.py`): compile one ParamItem. The
`assert False` on an unrecognized type (and the `TypeError` on a
bare-string dropdown option) are `.error` results. -/
def render_param_elem (initial_settings : Snapshot) (p : ParamItem) :
    Except String RenderedElem :=
  let dv := default_value initial_settings p
  let wrap : ControlElem → RenderedElem := fun e =>
    { label := p.label, elem := e,
      collapse_id := p.elem_id ++ "-collapse", is_open := true }
  if p.ptype = "dropdown" then
    match dropdown_options p.options with
    | some opts => .ok (wrap (.dropdown opts dv))
    | none => .error "TypeError: string indices must be integers"
  else if p.ptype = "checkbox" then
    .ok (wrap (.checkbox [("", .scalar (.jstr "CHECKED"))] dv))
  else if p.ptype = "selector" then
    .ok (wrap (.selector (p.options.map selector_option) dv))
  else if p.ptype = "slider" then
    .ok (wrap (.slider p.min_val p.max_val dv
      (slider_marks p.min_val p.max_val p.suffix) p.step))
  else if p.ptype = "input" then
    .ok (wrap (.input_field p.input_type dv))
  else .error ("parameter type not recognized: " ++ p.ptype)

/-- The five `type` strings `render_param_elem` dispatches on. -/
def recognized_type (t : String) : Bool :=
  t = "dropdown" ∨ t = "checkbox" ∨ t = "selector" ∨ t = "slider" ∨ t = "input"

/-! ## Compile-time validation (`decorate_callbacks` and the layout) -/

/-- A registered visibility subscription. -/
inductive VisCallback where
  | show_if_cb (elem_id : String) (target : String) (value : List JVal)
  | hide_if_cb (elem_id : String) (target : String) (value : List JVal)
deriving DecidableEq, Repr

/-- The per-item visibility registration of `decorate_callbacks`: items
with `show=False` are skipped; a `show_if` dict must not be combined
with `hide_if` and must carry `target` and `value` (`assert`s), and the
same for `hide_if`. -/
def decorate_param_item (p : ParamItem) : Except String (List VisCallback) :=
  if p.pshow = false then .ok []
  else
    match p.show_if with
    | some r =>
      if p.hide_if ≠ none then .error "Cannot combine show_if and hide_if"
      else
        match r.target with
        | none => .error "AssertionError: show_if target"
        | some t =>
          match r.value with
          | none => .error "AssertionError: show_if value"
          | some v => .ok [.show_if_cb p.elem_id t v]
    | none =>
      match p.hide_if with
      | some r =>
        match r.target with
        | none => .error "AssertionError: hide_if target"
        | some t =>
          match r.value with
          | none => .error "AssertionError: hide_if value"
          | some v => .ok [.hide_if_cb p.elem_id t v]
      | none => .ok []

def decorate_params : List ParamItem → Except String (List VisCallback)
  | [] => .ok []
  | p :: rest =>
    match decorate_param_item p with
    | .error e => .error e
    | .ok cbs =>
      match decorate_params rest with
      | .error e => .error e
      | .ok more => .ok (cbs ++ more)

/-- `decorate_callbacks` (`app.py`), visibility-registration part: run in
the constructor, before any event. -/
def decorate_menus : List Menu → Except String (List VisCallback)
  | [] => .ok []
  | m :: rest =>
    match decorate_params m.params with
    | .error e => .error e
    | .ok cbs =>
      match decorate_menus rest with
      | .error e => .error e
      | .ok more => .ok (cbs ++ more)

/-- One layout column: render each item that has `show=true`. -/
def render_column (initial_settings : Snapshot) : List ParamItem →
    Except String (List RenderedElem)
  | [] => .ok []
  | p :: rest =>
    if p.pshow then
      match render_param_elem initial_settings p with
      | .error e => .error e
      | .ok elem =>
        match render_column initial_settings rest with
        | .error e => .error e
        | .ok more => .ok (elem :: more)
    else render_column initial_settings rest

def render_columns (initial_settings : Snapshot) : List (List ParamItem) →
    Except String (List (List RenderedElem))
  | [] => .ok []
  | col :: rest =>
    match render_column initial_settings col with
    | .error e => .error e
    | .ok elems =>
      match render_columns initial_settings rest with
      | .error e => .error e
      | .ok more => .ok (elems :: more)

/-- `parameter_menus` (`app.py`): split each menu's parameters into
columns and render every shown item. -/
def parameter_menus (initial_settings : Snapshot) (ncols : Nat) :
    List Menu → Except String (List (List (List RenderedElem)))
  | [] => .ok []
  | m :: rest =>
    match render_columns initial_settings (split_param_columns m.params ncols) with
    | .error e => .error e
    | .ok cols =>
      match parameter_menus initial_settings ncols rest with
      | .error e => .error e
      | .ok more => .ok (cols :: more)

/-- The compile-time phases of `MenuDrivenFigure`: `decorate_callbacks`
runs in the constructor; the layout (and so `render_param_elem`) runs
when the first page is served — both before any event. -/
def compile_app (initial_settings : Snapshot) (menus : List Menu) (ncols : Nat) :
    Except String (List VisCallback × List (List (List RenderedElem))) :=
  match decorate_menus menus with
  | .error e => .error e
  | .ok cbs =>
    match parameter_menus initial_settings ncols menus with
    | .error e => .error e
    | .ok tree => .ok (cbs, tree)

/-- Modelled from the spec: a visibility rule whose `target` does not
resolve to another ParamItem's `elem_id` within the same schema
(claim C5's wording; the source never performs this check). -/
def has_dangling_target (menus : List Menu) : Bool :=
  let all_params := (menus.map (fun m => m.params)).flatten
  let ids := all_params.map (fun p => p.elem_id)
  all_params.any (fun p =>
    (match p.show_if with
     | some r =>
       match r.target with
       | some t => !(ids.contains t)
       | none => false
     | none => false) ||
    (match p.hide_if with
     | some r =>
       match r.target with
       | some t => !(ids.contains t)
       | none => false
     | none => false))

/-- Modelled from the spec: two ParamItems share an `elem_id`
(claim C5's wording; the source never performs this check). -/
def has_duplicate_elem_id (menus : List Menu) : Bool :=
  let ids := ((menus.map (fun m => m.params)).flatten).map (fun p => p.elem_id)
  decide (¬ids.Nodup)

/-! ## Menu open/close coordinator -/

/-- A click on a menu's open or close button (menu ids `menu-<ix>` are
index-derived, so menus are identified by index here). -/
inductive MenuEvent where
  | openClick (menu : Nat)
  | closeClick (menu : Nat)
deriving DecidableEq, Repr

/-- `open_close_parameter_menus` (`app.py`): compute every menu
collapse's `is_open` from the trigger: an open button opens exactly its
menu, a close button (or no trigger) closes all. -/
def open_close_parameter_menus (nmenus : Nat) (trigger : Option MenuEvent) : List Bool :=
  let open_menu : Option Nat :=
    match trigger with
    | none => none
    | some (.openClick m) => some m
    | some (.closeClick _) => none
  (List.range nmenus).map (fun ix => open_menu == some ix)

/-- The collapse outputs after a sequence of open/close clicks: the
callback recomputes every output on each event, and runs once with no
trigger on the initial call. -/
def run_open_close (nmenus : Nat) (events : List MenuEvent) : List Bool :=
  events.foldl (fun _ ev => open_close_parameter_menus nmenus (some ev))
    (open_close_parameter_menus nmenus none)

/-! ## Visibility rule callbacks -/

/-- `callback_show_param_if` (`app.py`): `obs_value in target_value`. -/
def callback_show_param_if (target_value : List JVal) (obs_value : JVal) : Bool :=
  decide (obs_value ∈ target_value)

/-- `callback_hide_param_if` (`app.py`): `obs_value not in target_value`. -/
def callback_hide_param_if (target_value : List JVal) (obs_value : JVal) : Bool :=
  decide (obs_value ∉ target_value)

/-! ## Supporting lemmas for the claim theorems -/

theorem slider_marks_of_ne (a b : Rat) (sfx : String) (hne : a ≠ b) :
    slider_marks a b sfx =
      [(a, fmt_mark a, sfx), (a + (b - a) / 2, fmt_mark (a + (b - a) / 2), sfx),
       (b, fmt_mark b, sfx)] := by
  have h1 : ¬(a = a + (b - a) / 2) := by
    intro h
    apply hne
    have hz : (b - a) / 2 = 0 := by linarith
    have : b - a = 0 := by linarith
    linarith
  have h2 : ¬(a = b) := hne
  have h3 : ¬(a + (b - a) / 2 = b) := by
    intro h
    apply hne
    have : (b - a) / 2 = b - a := by linarith
    have : b - a = 0 := by linarith
    linarith
  unfold slider_marks
  simp only [List.foldl_cons, List.foldl_nil]
  simp [dict_insert, h1, h2, h3]

theorem open_close_at (n : Nat) (t : Option MenuEvent) (j : Nat) (hj : j < n) :
    (open_close_parameter_menus n t)[j]? =
      some ((match t with
             | none => none
             | some (.openClick m) => some m
             | some (.closeClick _) => none : Option Nat) == some j) := by
  unfold open_close_parameter_menus
  rw [List.getElem?_map, List.getElem?_range hj]
  rfl

theorem open_close_count (n : Nat) (t : Option MenuEvent) :
    (open_close_parameter_menus n t).count true ≤ 1 := by
  have hopen : ∀ m : Nat, ∀ k : Nat,
      ((List.range k).map (fun ix => (some m : Option Nat) == some ix)).count true =
        if m < k then 1 else 0 := by
    intro m k
    induction k with
    | zero => simp
    | succ k2 ih =>
      rw [List.range_succ, List.map_append, List.count_append, ih]
      by_cases hmk : m = k2
      · subst hmk
        simp only [List.map_cons, List.map_nil]
        have hb : ((some m : Option Nat) == some m) = true := by simp
        rw [hb]
        simp only [List.count_cons, List.count_nil]
        simp
      · have hb : ((some m : Option Nat) == some k2) = false := by simp [hmk]
        rw [List.map_cons, List.map_nil, hb]
        simp only [List.count_cons, List.count_nil]
        by_cases hlt : m < k2
        · rw [if_pos hlt, if_pos (show m < k2 + 1 by omega)]
          simp
        · rw [if_neg hlt, if_neg (show ¬m < k2 + 1 by omega)]
          simp
  have hnone : ∀ k : Nat,
      ((List.range k).map (fun ix => (none : Option Nat) == some ix)).count true = 0 := by
    intro k
    apply List.count_eq_zero.mpr
    intro hmem
    simp at hmem
  cases t with
  | none =>
    have h0 : (open_close_parameter_menus n none).count true = 0 := hnone n
    omega
  | some ev =>
    cases ev with
    | openClick m =>
      have h0 : (open_close_parameter_menus n (some (.openClick m))).count true =
          if m < n then 1 else 0 := hopen m n
      by_cases hlt : m < n
      · rw [h0, if_pos hlt]
      · rw [h0, if_neg hlt]
        omega
    | closeClick m =>
      have h0 : (open_close_parameter_menus n (some (.closeClick m))).count true = 0 :=
        hnone n
      omega

theorem foldl_last {α β : Type} (g : α → β) : ∀ (evs : List α) (a : β),
    evs.foldl (fun _ e => g e) a =
      (match evs.getLast? with
       | some e => g e
       | none => a) := by
  intro evs
  induction evs with
  | nil => intro a; rfl
  | cons x xs ih =>
    intro a
    rw [List.foldl_cons, ih (g x)]
    cases xs with
    | nil => rfl
    | cons y ys =>
      rw [List.getLast?_cons_cons]
      cases hys : (y :: ys).getLast? with
      | some e => rfl
      | none =>
        have hne : (y :: ys).getLast?.isSome = true := by
          rw [List.getLast?_isSome]
          simp
        rw [hys] at hne
        simp at hne

theorem run_open_close_eq (n : Nat) (evs : List MenuEvent) :
    run_open_close n evs =
      open_close_parameter_menus n evs.getLast? := by
  unfold run_open_close
  rw [foldl_last]
  cases hl : evs.getLast? with
  | some e => rfl
  | none => rfl

theorem decorate_params_error : ∀ (l : List ParamItem),
    (∃ p ∈ l, ∃ e0, decorate_param_item p = .error e0) →
    ∃ e, decorate_params l = .error e := by
  intro l
  induction l with
  | nil => intro h; simp at h
  | cons q rest ih =>
    intro h
    obtain ⟨p, hp, e0, hpe⟩ := h
    cases hq : decorate_param_item q with
    | error e => exact ⟨e, by unfold decorate_params; rw [hq]⟩
    | ok cbs =>
      have hp2 : p ∈ rest := by
        cases List.mem_cons.mp hp with
        | inl heq => rw [heq, hq] at hpe; cases hpe
        | inr hmem => exact hmem
      obtain ⟨e, he⟩ := ih ⟨p, hp2, e0, hpe⟩
      refine ⟨e, ?_⟩
      unfold decorate_params
      rw [hq, he]

theorem decorate_menus_error : ∀ (menus : List Menu),
    (∃ m ∈ menus, ∃ e0, decorate_params m.params = .error e0) →
    ∃ e, decorate_menus menus = .error e := by
  intro menus
  induction menus with
  | nil => intro h; simp at h
  | cons q rest ih =>
    intro h
    obtain ⟨m, hm, e0, hme⟩ := h
    cases hq : decorate_params q.params with
    | error e => exact ⟨e, by unfold decorate_menus; rw [hq]⟩
    | ok cbs =>
      have hm2 : m ∈ rest := by
        cases List.mem_cons.mp hm with
        | inl heq => rw [heq, hq] at hme; cases hme
        | inr hmem => exact hmem
      obtain ⟨e, he⟩ := ih ⟨m, hm2, e0, hme⟩
      refine ⟨e, ?_⟩
      unfold decorate_menus
      rw [hq, he]

theorem decorate_param_item_both (p : ParamItem) (hshow : p.pshow = true)
    (hs : p.show_if ≠ none) (hh : p.hide_if ≠ none) :
    decorate_param_item p = .error "Cannot combine show_if and hide_if" := by
  unfold decorate_param_item
  rw [if_neg (by simp [hshow])]
  cases hsi : p.show_if with
  | none => exact absurd hsi hs
  | some r => simp [hh]

theorem render_param_elem_unrecognized (init : Snapshot) (p : ParamItem)
    (hrec : recognized_type p.ptype = false) :
    render_param_elem init p = .error ("parameter type not recognized: " ++ p.ptype) := by
  have h5 : ¬(p.ptype = "dropdown") ∧ ¬(p.ptype = "checkbox") ∧ ¬(p.ptype = "selector") ∧
      ¬(p.ptype = "slider") ∧ ¬(p.ptype = "input") := by
    unfold recognized_type at hrec
    simp only [decide_eq_false_iff_not] at hrec
    push_neg at hrec
    exact ⟨hrec.1, hrec.2.1, hrec.2.2.1, hrec.2.2.2.1, hrec.2.2.2.2⟩
  unfold render_param_elem
  rw [if_neg h5.1, if_neg h5.2.1, if_neg h5.2.2.1, if_neg h5.2.2.2.1, if_neg h5.2.2.2.2]

theorem render_column_error (init : Snapshot) : ∀ (col : List ParamItem),
    (∃ p ∈ col, p.pshow = true ∧ ∃ e0, render_param_elem init p = .error e0) →
    ∃ e, render_column init col = .error e := by
  intro col
  induction col with
  | nil => intro h; simp at h
  | cons q rest ih =>
    intro h
    obtain ⟨p, hp, hpshow, e0, hpe⟩ := h
    by_cases hq : q.pshow
    · cases hqe : render_param_elem init q with
      | error e =>
        refine ⟨e, ?_⟩
        unfold render_column
        rw [if_pos hq, hqe]
      | ok elem =>
        have hp2 : p ∈ rest := by
          cases List.mem_cons.mp hp with
          | inl heq => rw [heq, hqe] at hpe; cases hpe
          | inr hmem => exact hmem
        obtain ⟨e, he⟩ := ih ⟨p, hp2, hpshow, e0, hpe⟩
        refine ⟨e, ?_⟩
        unfold render_column
        rw [if_pos hq, hqe, he]
    · have hp2 : p ∈ rest := by
        cases List.mem_cons.mp hp with
        | inl heq => rw [heq] at hpshow; exact absurd hpshow (by simpa using hq)
        | inr hmem => exact hmem
      obtain ⟨e, he⟩ := ih ⟨p, hp2, hpshow, e0, hpe⟩
      refine ⟨e, ?_⟩
      unfold render_column
      rw [if_neg hq, he]

theorem render_columns_error (init : Snapshot) : ∀ (cols : List (List ParamItem)),
    (∃ col ∈ cols, ∃ e0, render_column init col = .error e0) →
    ∃ e, render_columns init cols = .error e := by
  intro cols
  induction cols with
  | nil => intro h; simp at h
  | cons q rest ih =>
    intro h
    obtain ⟨col, hcol, e0, hce⟩ := h
    cases hq : render_column init q with
    | error e => exact ⟨e, by unfold render_columns; rw [hq]⟩
    | ok elems =>
      have hc2 : col ∈ rest := by
        cases List.mem_cons.mp hcol with
        | inl heq => rw [heq, hq] at hce; cases hce
        | inr hmem => exact hmem
      obtain ⟨e, he⟩ := ih ⟨col, hc2, e0, hce⟩
      refine ⟨e, ?_⟩
      unfold render_columns
      rw [hq, he]

theorem parameter_menus_error (init : Snapshot) (ncols : Nat) : ∀ (menus : List Menu),
    (∃ m ∈ menus, ∃ e0,
      render_columns init (split_param_columns m.params ncols) = .error e0) →
    ∃ e, parameter_menus init ncols menus = .error e := by
  intro menus
  induction menus with
  | nil => intro h; simp at h
  | cons q rest ih =>
    intro h
    obtain ⟨m, hm, e0, hme⟩ := h
    cases hq : render_columns init (split_param_columns q.params ncols) with
    | error e => exact ⟨e, by unfold parameter_menus; rw [hq]⟩
    | ok cols =>
      have hm2 : m ∈ rest := by
        cases List.mem_cons.mp hm with
        | inl heq => rw [heq, hq] at hme; cases hme
        | inr hmem => exact hmem
      obtain ⟨e, he⟩ := ih ⟨m, hm2, e0, hme⟩
      refine ⟨e, ?_⟩
      unfold parameter_menus
      rw [hq, he]

theorem mem_split_of_mem (l : List ParamItem) (n : Nat) (p : ParamItem) (hp : p ∈ l) :
    ∃ col ∈ split_param_columns l n, p ∈ col := by
  have hj : (split_param_columns l n).flatten = l :=
    split_go_join l.length l n (le_refl _)
  rw [← hj] at hp
  exact List.mem_flatten.mp hp

theorem compile_app_error (init : Snapshot) (menus : List Menu) (ncols : Nat)
    (h : (∃ e0, decorate_menus menus = .error e0) ∨
         (∃ e0, parameter_menus init ncols menus = .error e0)) :
    ∃ e, compile_app init menus ncols = .error e := by
  cases hd : decorate_menus menus with
  | error e => exact ⟨e, by unfold compile_app; rw [hd]⟩
  | ok cbs =>
    cases h with
    | inl hdd =>
      obtain ⟨e0, he0⟩ := hdd
      rw [hd] at he0
      cases he0
    | inr hpm =>
      obtain ⟨e0, he0⟩ := hpm
      refine ⟨e0, ?_⟩
      unfold compile_app
      rw [hd, he0]

/-! ## Claim theorems -/

theorem figure_callback_gate {D : Type} (data : D)
    (f : D → JTop → Except String Fig) (open_clicks : List (Option Nat))
    (trigger : FigTrigger) (s : String)
    (hgate : open_clicks.all (fun v => v.isNone) = true ∨ is_redraw_trigger trigger = true) :
    figure_callback data f open_clicks trigger s = (run_render data f s).map some := by
  unfold figure_callback
  cases hgate with
  | inl h => rw [if_pos h]
  | inr h =>
    by_cases hall : open_clicks.all (fun v => v.isNone)
    · rw [if_pos hall]
    · rw [if_neg hall, if_pos h]

/-- C1: Render-trigger debouncing. If no menu open button has ever been
clicked (all open-click counters are `None`), `figure_callback` proceeds
to render regardless of the trigger; once any open button has been
clicked, it proceeds to render iff the trigger is a Redraw or
Close-Menu-and-Redraw button click, and every other trigger raises
`PreventUpdate` (`.ok none`): no update of the figure or notification. -/
theorem C1_render_trigger_debouncing {D : Type} (data : D)
    (f : D → JTop → Except String Fig) (open_clicks : List (Option Nat))
    (trigger : FigTrigger) (s : String) :
    (open_clicks.all (fun v => v.isNone) = true →
      figure_callback data f open_clicks trigger s = (run_render data f s).map some) ∧
    (open_clicks.all (fun v => v.isNone) = false →
      (is_redraw_trigger trigger = true →
        figure_callback data f open_clicks trigger s = (run_render data f s).map some) ∧
      (is_redraw_trigger trigger = false →
        figure_callback data f open_clicks trigger s = .ok none)) := by
  constructor
  · intro h
    unfold figure_callback
    rw [if_pos h]
  · intro h
    constructor
    · intro hr
      unfold figure_callback
      rw [if_neg (by simp [h]), if_pos hr]
    · intro hr
      unfold figure_callback
      rw [if_neg (by simp [h]), if_neg (by simp [hr])]

/-- Witness for C1 at a concrete input: with an open button clicked once,
a menu-open trigger produces `PreventUpdate`. -/
theorem C1_witness :
    figure_callback (0 : Nat) (fun _ _ => Except.ok empty_plot) [some 1]
      (.openBtn "menu-0") "null" = .ok none :=
  ((C1_render_trigger_debouncing (0 : Nat) (fun _ _ => Except.ok empty_plot) [some 1]
    (.openBtn "menu-0") "null").2 rfl).2 rfl

/-- C2: Render failure isolation. Whenever `figure_callback` passes the
debounce gate on a parseable settings document, a raising render function
yields the shared placeholder figure, notification open = true and the
message `"Unable to render -- "` followed by the error detail; a render
function that returns an artifact yields that artifact, notification
open = false, and a null message. -/
theorem C2_render_failure_isolation {D : Type} (data : D)
    (f : D → JTop → Except String Fig) (open_clicks : List (Option Nat))
    (trigger : FigTrigger) (s : String) (ps : JTop)
    (hparse : parse_params s = some ps)
    (hgate : open_clicks.all (fun v => v.isNone) = true ∨ is_redraw_trigger trigger = true) :
    (∀ e, f data ps = .error e →
      figure_callback data f open_clicks trigger s =
        .ok (some (empty_plot, true, some ("Unable to render -- " ++ e)))) ∧
    (∀ a, f data ps = .ok a →
      figure_callback data f open_clicks trigger s = .ok (some (a, false, none))) := by
  have hcb := figure_callback_gate data f open_clicks trigger s hgate
  have hrr : run_render data f s =
      (match f data ps with
       | .ok fig => .ok (fig, false, none)
       | .error e => .ok (empty_plot, true, some ("Unable to render -- " ++ e))) := by
    unfold run_render
    rw [hparse]
  constructor
  · intro e he
    rw [hcb, hrr, he]
    rfl
  · intro a ha
    rw [hcb, hrr, ha]
    rfl

/-- Witness for C2 at a concrete input: a render function that raises
`"division by zero"` on the default settings. -/
theorem C2_witness :
    figure_callback (0 : Nat)
      (fun _ _ => (Except.error "division by zero" : Except String Fig))
      [none] .noTrigger "null" =
      .ok (some (empty_plot, true, some ("Unable to render -- " ++ "division by zero"))) :=
  (C2_render_failure_isolation (0 : Nat)
    (fun _ _ => (Except.error "division by zero" : Except String Fig))
    [none] .noTrigger "null" (.val (.scalar .jnull)) rfl (Or.inl rfl)).1
    "division by zero" rfl

/-- C3 counterexample: for the malformed settings string `"not json"`, a
Redraw-triggered `figure_callback` lets the parse failure escape
uncaught (`.error`) — the placeholder is not displayed and the
notification is not opened, contrary to the claim. -/
theorem C3_counterexample :
    parse_params "not json" = none ∧
    figure_callback (0 : Nat) (fun _ _ => Except.ok empty_plot) [some 1]
      (.redrawBtn "menu-0") "not json" = .error "JSONDecodeError" := by
  constructor
  · rfl
  · rfl

/-- C3 (amended): `parse_params` is called before the `try`/`except` of
`figure_callback`, so for every string that is not a well-formed
serialized settings document, a render trigger that resolves it raises
the parse failure out of the callback uncaught — it is not surfaced as a
render error (no placeholder, no notification). -/
theorem C3_parse_failure_escapes {D : Type} (data : D)
    (f : D → JTop → Except String Fig) (open_clicks : List (Option Nat))
    (trigger : FigTrigger) (s : String)
    (hparse : parse_params s = none)
    (hgate : open_clicks.all (fun v => v.isNone) = true ∨ is_redraw_trigger trigger = true) :
    figure_callback data f open_clicks trigger s = .error "JSONDecodeError" := by
  rw [figure_callback_gate data f open_clicks trigger s hgate]
  unfold run_render
  rw [hparse]
  rfl

/-- Witness for C3's amended theorem at a concrete input. -/
theorem C3_witness :
    figure_callback (0 : Nat) (fun _ _ => Except.ok empty_plot) [none]
      .settingsChanged "nope" = .error "JSONDecodeError" :=
  C3_parse_failure_escapes (0 : Nat) (fun _ _ => Except.ok empty_plot) [none]
    .settingsChanged "nope" rfl (Or.inl rfl)

/-- C4: Column splitter preservation and grouping. For every ordered
parameter list and column count `n ≥ 1`, concatenating the returned
columns yields exactly the original list, and no item with
`keep_with_previous = true` is ever the first element of a column other
than the first. -/
theorem C4_column_splitter (l : List ParamItem) (n : Nat) (h : 1 ≤ n) :
    (split_param_columns l n).flatten = l ∧
    (∀ j col p, 1 ≤ j → (split_param_columns l n)[j]? = some col →
      col.head? = some p → p.keep_with_previous = false) :=
  ⟨split_go_join l.length l n (le_refl _),
   fun j col p hj hcol hhead => split_go_keep l.length l n j col p hcol hj hhead⟩

/-- Witness for C4 at a concrete list: three items, the middle one marked
keep-with-previous, split into two columns. -/
theorem C4_witness :
    (split_param_columns
      [{ elem_id := "a" }, { elem_id := "b", keep_with_previous := true },
        { elem_id := "c" }] 2).flatten =
      [({ elem_id := "a" } : ParamItem), { elem_id := "b", keep_with_previous := true },
        { elem_id := "c" }] ∧
    ({ elem_id := "c" } : ParamItem).keep_with_previous = false :=
  ⟨(C4_column_splitter
      [{ elem_id := "a" }, { elem_id := "b", keep_with_previous := true },
        { elem_id := "c" }] 2 (by decide)).1,
   (C4_column_splitter
      [{ elem_id := "a" }, { elem_id := "b", keep_with_previous := true },
        { elem_id := "c" }] 2 (by decide)).2 1 [{ elem_id := "c" }] { elem_id := "c" }
      (by decide) (by decide) (by decide)⟩

/-- The schema refuting claim C5: a duplicate `elem_id`, a `show_if`
whose target resolves to no item, and a hidden item with an unrecognized
type — and compilation still succeeds. -/
def exampleSchemaC5 : List Menu :=
  [{ label := "Menu",
     params := [
       { elem_id := "dup", ptype := "input", input_type := "text" },
       { elem_id := "dup", ptype := "input", input_type := "text",
         show_if := some { target := some "ghost", value := some [.scalar (.jstr "x")] } },
       { elem_id := "hidden-item", ptype := "bogus", pshow := false }] }]

/-- C5 counterexample: compilation succeeds on a schema with a dangling
visibility-rule target, a duplicate `elem_id`, and an unrecognized type
on a hidden item — the source never checks any of the three. -/
theorem C5_counterexample :
    (∃ out, compile_app [] exampleSchemaC5 2 = .ok out) ∧
    has_dangling_target exampleSchemaC5 = true ∧
    has_duplicate_elem_id exampleSchemaC5 = true ∧
    (∃ m ∈ exampleSchemaC5, ∃ p ∈ m.params,
      p.pshow = false ∧ recognized_type p.ptype = false) := by
  refine ⟨⟨_, rfl⟩, by decide, by decide, by decide⟩

/-- C5 (amended): compilation fails whenever a ParamItem with
`show = true` has an unrecognized type, or a shown ParamItem declares
both `show_if` and `hide_if`. (Dangling rule targets and duplicate
`elem_id`s are not checked, and hidden items' types are not checked:
see the counterexample.) -/
theorem C5_compile_failures (init : Snapshot) (menus : List Menu) (ncols : Nat)
    (hbad :
      (∃ m ∈ menus, ∃ p ∈ m.params, p.pshow = true ∧ recognized_type p.ptype = false) ∨
      (∃ m ∈ menus, ∃ p ∈ m.params, p.pshow = true ∧ p.show_if ≠ none ∧ p.hide_if ≠ none)) :
    ∃ e, compile_app init menus ncols = .error e := by
  cases hbad with
  | inl h =>
    obtain ⟨m, hm, p, hp, hshow, hrec⟩ := h
    apply compile_app_error
    right
    apply parameter_menus_error
    obtain ⟨col, hcolmem, hpcol⟩ := mem_split_of_mem m.params ncols p hp
    obtain ⟨e1, he1⟩ := render_column_error init col
      ⟨p, hpcol, hshow, _, render_param_elem_unrecognized init p hrec⟩
    obtain ⟨e2, he2⟩ := render_columns_error init (split_param_columns m.params ncols)
      ⟨col, hcolmem, e1, he1⟩
    exact ⟨m, hm, e2, he2⟩
  | inr h =>
    obtain ⟨m, hm, p, hp, hshow, hs, hh⟩ := h
    apply compile_app_error
    left
    apply decorate_menus_error
    obtain ⟨e1, he1⟩ := decorate_params_error m.params
      ⟨p, hp, _, decorate_param_item_both p hshow hs hh⟩
    exact ⟨m, hm, e1, he1⟩

/-- Witness for C5's amended theorem: a shown item with an unrecognized
type makes compilation fail. -/
theorem C5_witness :
    ∃ e, compile_app []
      [{ label := "M", params := [{ elem_id := "x", ptype := "bogus" }] }] 2 = .error e :=
  C5_compile_failures []
    [{ label := "M", params := [{ elem_id := "x", ptype := "bogus" }] }] 2
    (Or.inl (by decide))

/-- C6: Single-open-menu invariant. After every sequence of open/close
clicks at most one menu collapse is open; after an open click on menu
`m`, menu `j` is open iff `j = m`; after a close click, or with no
events at all, every menu is closed. -/
theorem C6_single_open_menu (n : Nat) (evs : List MenuEvent) :
    (run_open_close n evs).count true ≤ 1 ∧
    (∀ m j, evs.getLast? = some (.openClick m) → j < n →
      ((run_open_close n evs)[j]? = some true ↔ j = m)) ∧
    ((evs.getLast? = none ∨ ∃ m, evs.getLast? = some (.closeClick m)) →
      ∀ j, j < n → (run_open_close n evs)[j]? = some false) := by
  have hrun := run_open_close_eq n evs
  refine ⟨?_, ?_, ?_⟩
  · rw [hrun]
    exact open_close_count n evs.getLast?
  · intro m j hlast hj
    rw [hrun, hlast, open_close_at n (some (.openClick m)) j hj]
    show some ((some m : Option Nat) == some j) = some true ↔ j = m
    simp only [Option.some.injEq, beq_iff_eq]
    exact ⟨fun h2 => h2.symm, fun h2 => h2.symm⟩
  · intro hlast j hj
    cases hlast with
    | inl h =>
      rw [hrun, h, open_close_at n none j hj]
      rfl
    | inr h =>
      obtain ⟨m, hm⟩ := h
      rw [hrun, hm, open_close_at n (some (.closeClick m)) j hj]
      rfl

/-- Witness for C6 at a concrete sequence: opening menu 0 then menu 1
leaves exactly menu 1 open. -/
theorem C6_witness :
    (run_open_close 3 [.openClick 0, .openClick 1])[1]? = some true ∧
    (run_open_close 3 []).count true ≤ 1 :=
  ⟨((C6_single_open_menu 3 [.openClick 0, .openClick 1]).2.1 1 1 rfl (by decide)).mpr rfl,
   (C6_single_open_menu 3 []).1⟩

/-- C7: Visibility rule semantics. For a `show_if` rule with value set
`V`, after the target's live value changes to `v` the container is
visible iff `v ∈ V`; for a `hide_if` rule, visible iff `v ∉ V`. -/
theorem C7_visibility_rule_semantics (V : List JVal) (v : JVal) :
    (callback_show_param_if V v = true ↔ v ∈ V) ∧
    (callback_hide_param_if V v = true ↔ v ∉ V) := by
  constructor
  · simp [callback_show_param_if]
  · simp [callback_hide_param_if]

/-- C8 counterexample: a slider with `min_val = max_val = 2` exposes a
single tick mark, not three — the three dict keys coincide. -/
theorem C8_counterexample :
    slider_marks 2 2 "" = [((2 : Rat), NumLabel.asInt 2, "")] ∧
    (slider_marks 2 2 "").length = 1 ∧
    render_param_elem []
      { elem_id := "s", ptype := "slider", min_val := 2, max_val := 2, step := 1 } =
      .ok { label := "", elem := .slider 2 2 (.jarr []) [((2 : Rat), NumLabel.asInt 2, "")] 1,
            collapse_id := "s" ++ "-collapse", is_open := true } := by
  have hmid : (2 : Rat) + (2 - 2) / 2 = 2 := by norm_num
  have hmarks : slider_marks 2 2 "" = [((2 : Rat), NumLabel.asInt 2, "")] := by
    unfold slider_marks
    dsimp only
    rw [hmid]
    decide
  have hrender : render_param_elem []
      { elem_id := "s", ptype := "slider", min_val := 2, max_val := 2, step := 1 } =
      .ok { label := "", elem := .slider 2 2 (.jarr []) (slider_marks 2 2 "") 1,
            collapse_id := "s" ++ "-collapse", is_open := true } := rfl
  refine ⟨hmarks, by simp [hmarks], ?_⟩
  rw [hrender, hmarks]

/-- C8 (amended): for every slider item with `min_val ≠ max_val` the
compiled control exposes exactly three tick marks — at min, at the
midpoint `min + (max - min)/2`, and at max — each labelled by the value
(as an integer when the value is whole, as-is otherwise) followed by the
optional suffix. When `min_val = max_val` the marks collapse to one. -/
theorem C8_slider_three_marks (init : Snapshot) (p : ParamItem)
    (hty : p.ptype = "slider") (hne : p.min_val ≠ p.max_val) :
    render_param_elem init p = .ok
      { label := p.label,
        elem := .slider p.min_val p.max_val (default_value init p)
          [(p.min_val, fmt_mark p.min_val, p.suffix),
           (p.min_val + (p.max_val - p.min_val) / 2,
              fmt_mark (p.min_val + (p.max_val - p.min_val) / 2), p.suffix),
           (p.max_val, fmt_mark p.max_val, p.suffix)] p.step,
        collapse_id := p.elem_id ++ "-collapse", is_open := true } ∧
    (slider_marks p.min_val p.max_val p.suffix).length = 3 := by
  have hmarks := slider_marks_of_ne p.min_val p.max_val p.suffix hne
  constructor
  · unfold render_param_elem
    dsimp only
    rw [hty]
    rw [if_neg (by decide : ¬("slider" : String) = "dropdown"),
        if_neg (by decide : ¬("slider" : String) = "checkbox"),
        if_neg (by decide : ¬("slider" : String) = "selector"),
        if_pos rfl, hmarks]
  · rw [hmarks]
    rfl

/-- Witness for C8's amended theorem at a concrete slider (0 to 10,
suffix "px"): three marks. -/
theorem C8_witness : (slider_marks 0 10 "px").length = 3 :=
  (C8_slider_three_marks []
    { elem_id := "s", ptype := "slider", min_val := 0, max_val := 10, step := 1,
      suffix := "px" } rfl (by decide)).2

/-- C9: Snapshot serialization round trip and parse determinism. Parsing
the serialized JSON document of any snapshot produced by the settings
store yields a mapping identical to the original; `parse_params` is a
pure function, and its LRU cache is observationally transparent: on any
well-formed cache state the cached parse returns exactly `parse_params`
and preserves well-formedness. -/
theorem C9_snapshot_roundtrip_parse :
    (∀ elems : Snapshot, parse_params (update_url elems) = some (.jobj elems)) ∧
    (∀ cache s, cache_wf cache →
      (parse_params_cached cache s).1 = parse_params s ∧
      cache_wf (parse_params_cached cache s).2) :=
  ⟨parse_params_update_url, fun cache s h => parse_params_cached_spec cache s h⟩

/-- Witness for C9 at a concrete snapshot and the empty cache. -/
theorem C9_witness :
    parse_params (update_url [("display-species", .scalar (.jstr "virginica")),
      ("plot-title", .scalar (.jstr "Iris Dataset"))]) =
      some (.jobj [("display-species", .scalar (.jstr "virginica")),
        ("plot-title", .scalar (.jstr "Iris Dataset"))]) ∧
    (parse_params_cached [] "7").1 = parse_params "7" :=
  ⟨C9_snapshot_roundtrip_parse.1 _,
   (C9_snapshot_roundtrip_parse.2 [] "7" (by intro kv hkv; simp at hkv)).1⟩

/-- C10: Column count bound. For every parameter list and `n ≥ 1` the
splitter returns at most `n` columns, returns the empty sequence exactly
for the empty input, and at least one column for a non-empty input. -/
theorem C10_split_column_count (l : List ParamItem) (n : Nat) (h : 1 ≤ n) :
    (split_param_columns l n).length ≤ n ∧
    (split_param_columns l n = [] ↔ l = []) ∧
    (l ≠ [] → 1 ≤ (split_param_columns l n).length) := by
  obtain ⟨h1, h2⟩ := split_go_length l.length l n h
  refine ⟨h1, h2, ?_⟩
  intro hne
  by_cases hsp : split_param_columns l n = []
  · exact absurd (h2.mp hsp) hne
  · have hpos := List.length_pos.mpr hsp
    omega

/-- Witness for C10 at a concrete one-item list with three columns. -/
theorem C10_witness :
    (split_param_columns [{ elem_id := "x" }] 3).length ≤ 3 ∧
    1 ≤ (split_param_columns [{ elem_id := "x" }] 3).length :=
  ⟨(C10_split_column_count [{ elem_id := "x" }] 3 (by decide)).1,
   (C10_split_column_count [{ elem_id := "x" }] 3 (by decide)).2.2 (by decide)⟩

end MDF
